import Mathlib

/-!
Shallow embedding of the delta-sync reconciliation engine in
`upload_to_vector_store.py`, together with theorems about its behaviour.

Remote-service behaviour (the OpenAI vector-store client) is modelled by an
oracle of responses; JSON (de)serialisation of the two persisted stores is
modelled at the value level (a mapping written by `json.dump` is read back
identically by `json.load`).
-/

namespace SupportDocs

/-- An artifact to index: a markdown file under `articles/`.  `name` is
`file_path.name` (for example "a.md"), `stem` is `file_path.stem` (for
example "a"), and `hash` is `calculate_file_hash(file_path)`, the sha256
hex digest of the file content — a deterministic fingerprint of the
content, so it is carried as a field. -/
structure Artifact where
  name : String
  stem : String
  hash : String
  deriving DecidableEq, Repr

/-- Python dict lookup `d.get(k)` on an association list: first binding wins
(dicts built by this program have unique keys). -/
def dictGet {α : Type} (q : String) : List (String × α) → Option α
  | [] => none
  | (k, v) :: d => if k = q then some v else dictGet q d

/-- Python dict assignment `d[k] = v`: replace the existing binding in
place, otherwise append (insertion order is preserved, as in CPython). -/
def dictSet {α : Type} (k : String) (v : α) : List (String × α) → List (String × α)
  | [] => [(k, v)]
  | (k₁, v₁) :: d => if k₁ = k then (k, v) :: d else (k₁, v₁) :: dictSet k v d

/-- Python truthiness of `upload_history.get(file_name)`: `None` and the
empty string are falsy. -/
def truthy : Option String → Bool
  | none => false
  | some s => if s = "" then false else true

/-- A value of `vector_store_mapping[file_name]` as written at lines
215-219 of `upload_to_vector_store.py`.  An absent `file_id` key is
modelled as the (falsy) empty string. -/
structure MappingRecord where
  file_id : String
  uploaded_at : String
  vector_store_id : String
  deriving DecidableEq, Repr

/-- Result of `client.vector_stores.file_batches.upload_and_poll`: either
the call raised, or it returned a batch whose `status` is `s`. -/
inductive IngestOutcome where
  | raised
  | status (s : String)
  deriving DecidableEq, Repr

/-- `batch.status != "completed"` (or the upload call raising) makes the
artifact fail; the `RuntimeError` is caught by the per-artifact handler. -/
def ingestOutcomeFails : IngestOutcome → Bool
  | IngestOutcome.raised => true
  | IngestOutcome.status s => if s = "completed" then false else true

/-- Responses of the remote vector-store service for one run.  `deleteOk`
is the outcome of `client.vector_stores.files.delete` (consulted by nobody:
the code catches and logs a failure); `ingest` is the outcome of
`upload_and_poll` for each artifact; `listing` is the list of file ids
returned by `client.vector_stores.files.list` right after ingesting that
artifact; `uploadedAt` is `datetime.utcnow().isoformat() + "Z"` at that
moment. -/
structure Oracle where
  deleteOk : String → Bool
  ingest : Artifact → IngestOutcome
  listing : Artifact → List String
  uploadedAt : Artifact → String

/-- A remote call issued against the vector-store service inside the
per-artifact loop. -/
inductive RemoteCall where
  | delete (vsId fileId : String)
  | ingest (vsId fileName : String)
  | listFiles (vsId : String)
  deriving DecidableEq, Repr

/-- The two persisted stores: `upload_history` (name → fingerprint) and
`vector_store_mapping` (name → mapping record). -/
structure Stores where
  history : List (String × String)
  mapping : List (String × MappingRecord)
  deriving DecidableEq, Repr

/-- Effect of one iteration of the per-artifact loop: resulting stores,
increments of the `uploaded` / `updated` / `skipped` counters, and the
remote calls issued, in order. -/
structure StepResult where
  stores : Stores
  dNew : Nat
  dUpd : Nat
  dSkip : Nat
  calls : List RemoteCall
  deriving DecidableEq, Repr

/-- `delete_old_file_from_vector_store` (lines 116-135): look up the old
mapping record; if present with a truthy `file_id`, issue the remote delete
(its own failure is caught and only logged, so the local state never
changes).  Returns the calls issued. -/
def delete_old_file_from_vector_store (vsId : String)
    (mapping : List (String × MappingRecord)) (fileName : String) : List RemoteCall :=
  match dictGet fileName mapping with
  | none => []
  | some old => if old.file_id = "" then [] else [RemoteCall.delete vsId old.file_id]

/-- Recovery of the file id after a completed upload (lines 201-212): the
first element of the listing when non-empty, otherwise the synthetic id
"unknown_" followed by the file stem. -/
def recoveredFileId (listing : List String) (stem : String) : String :=
  match listing with
  | [] => "unknown_" ++ stem
  | e :: _ => e

/-- One iteration of the loop at lines 173-223 of
`upload_to_vector_store.py`, for artifact `a` with current stores `st`:
skip when the stored fingerprint equals the current one; otherwise classify
as updated (truthy previous fingerprint, with the best-effort delete of the
old remote file) or new, then upload-and-poll; on a non-completed status or
a raised exception the handler logs and continues, leaving the stores
untouched; on success the file id is recovered from a listing (falling back
to a synthetic "unknown_" id when the listing is empty) and both stores are
updated in memory. -/
def processArtifact (o : Oracle) (vsId : String) (st : Stores) (a : Artifact) : StepResult :=
  let previous := dictGet a.name st.history
  if previous = some a.hash then
    ⟨st, 0, 0, 1, []⟩
  else
    let isUpd := truthy previous
    let delCalls := if isUpd then delete_old_file_from_vector_store vsId st.mapping a.name else []
    let dNew := if isUpd then 0 else 1
    let dUpd := if isUpd then 1 else 0
    match o.ingest a with
    | IngestOutcome.raised => ⟨st, dNew, dUpd, 0, delCalls ++ [RemoteCall.ingest vsId a.name]⟩
    | IngestOutcome.status s =>
      if s = "completed" then
        ⟨⟨dictSet a.name a.hash st.history,
          dictSet a.name ⟨recoveredFileId (o.listing a) a.stem, o.uploadedAt a, vsId⟩ st.mapping⟩,
          dNew, dUpd, 0,
          delCalls ++ [RemoteCall.ingest vsId a.name, RemoteCall.listFiles vsId]⟩
      else ⟨st, dNew, dUpd, 0, delCalls ++ [RemoteCall.ingest vsId a.name]⟩

/-- Accumulated run state: current stores, the three counters of `main`,
and the trace of remote calls issued so far inside the loop. -/
structure RunAcc where
  stores : Stores
  uploaded : Nat
  updated : Nat
  skipped : Nat
  trace : List RemoteCall
  deriving DecidableEq, Repr

/-- Fold one artifact into the accumulated run state. -/
def stepRun (o : Oracle) (vsId : String) (acc : RunAcc) (a : Artifact) : RunAcc :=
  let r := processArtifact o vsId acc.stores a
  ⟨r.stores, acc.uploaded + r.dNew, acc.updated + r.dUpd, acc.skipped + r.dSkip,
    acc.trace ++ r.calls⟩

/-- The whole per-artifact loop over the sorted markdown files. -/
def runLoop (o : Oracle) (vsId : String) : RunAcc → List Artifact → RunAcc
  | acc, [] => acc
  | acc, a :: l => runLoop o vsId (stepRun o vsId acc a) l

/-- Fresh accumulator at loop entry: counters zero, no calls yet. -/
def initAcc (st : Stores) : RunAcc := ⟨st, 0, 0, 0, []⟩

/-- The reconciliation pass of `main` on loaded stores and the current
artifact list. -/
def runReconciliation (o : Oracle) (vsId : String) (hist0 : List (String × String))
    (map0 : List (String × MappingRecord)) (l : List Artifact) : RunAcc :=
  runLoop o vsId (initAcc ⟨hist0, map0⟩) l

/-- The Run Outcome: the dict returned by `main` (lines 238-246).  Its keys
are exactly these — there is no key counting failed artifacts. -/
structure UploadSummary where
  uploaded_files : Nat
  updated_files : Nat
  skipped_files : Nat
  new_files : Nat
  total_chunks : Nat
  vector_store_id : Option String
  deriving DecidableEq, Repr

/-- Build the returned summary from the final counters. -/
def uploadSummary (acc : RunAcc) (vsId : String) : UploadSummary :=
  ⟨acc.uploaded, acc.updated, acc.skipped, acc.uploaded, acc.uploaded + acc.updated, some vsId⟩

/-- Configuration read from the environment: `VECTOR_STORE_ID` (stripped;
empty when unset) and `ENVIRONMENT`. -/
structure Config where
  vectorStoreIdEnv : String
  environment : String
  deriving DecidableEq, Repr

/-- Remote responses for collection resolution: whether
`client.vector_stores.retrieve` of the supplied id succeeds, and the id a
`client.vector_stores.create` call would return. -/
structure VsOracle where
  retrieveOk : Bool
  createdId : String
  deriving DecidableEq, Repr

/-- A remote call issued during collection resolution. -/
inductive VsCall where
  | retrieve (id : String)
  | create
  deriving DecidableEq, Repr

/-- `get_or_create_vector_store` (lines 95-113): try the configured id if
truthy; on retrieval failure (or no id at all) fail fast when
`ENVIRONMENT == "production"`, otherwise create a new vector store.
Returns the result together with the remote calls issued. -/
def get_or_create_vector_store (cfg : Config) (o : VsOracle) :
    Except String String × List VsCall :=
  if cfg.vectorStoreIdEnv = "" then
    if cfg.environment = "production" then
      (Except.error "VECTOR_STORE_ID must be set in production environment", [])
    else
      (Except.ok o.createdId, [VsCall.create])
  else
    if o.retrieveOk then
      (Except.ok cfg.vectorStoreIdEnv, [VsCall.retrieve cfg.vectorStoreIdEnv])
    else if cfg.environment = "production" then
      (Except.error "VECTOR_STORE_ID must be set in production environment",
        [VsCall.retrieve cfg.vectorStoreIdEnv])
    else
      (Except.ok o.createdId, [VsCall.retrieve cfg.vectorStoreIdEnv, VsCall.create])

/-- A JSON document holding one of the stores: a mapping from artifact name
to value.  `json.dump` followed by `json.load` reproduces the mapping, so
files are modelled at the value level. -/
abbrev StoreDoc (α : Type) := List (String × α)

/-- The local filesystem as far as the stores are concerned: path → stored
document, absent paths having no binding. -/
abbrev FileSys (α : Type) := List (String × StoreDoc α)

/-- `load_json` (lines 73-77): return the parsed document when the path
exists, and the empty mapping — not an error — when it does not. -/
def load_json {α : Type} (fs : FileSys α) (path : String) : StoreDoc α :=
  match dictGet path fs with
  | some d => d
  | none => []

/-- `save_json` (lines 80-82): (over)write the document at the path. -/
def save_json {α : Type} (fs : FileSys α) (path : String) (data : StoreDoc α) : FileSys α :=
  dictSet path data fs

/-! ## Concrete fixtures used to instantiate theorems -/

/-- A concrete artifact "a.md" hashing to "H1". -/
def wA : Artifact := ⟨"a.md", "a", "H1"⟩

/-- A concrete artifact "b.md" hashing to "H2". -/
def wB : Artifact := ⟨"b.md", "b", "H2"⟩

/-- A concrete oracle: every delete succeeds, every ingest batch completes,
every listing returns the single file id "fid_new". -/
def wOracle : Oracle :=
  ⟨fun _ => true, fun _ => IngestOutcome.status "completed", fun _ => ["fid_new"],
    fun _ => "2026-01-01T00:00:00Z"⟩

/-- A concrete oracle whose every ingest batch ends with status "failed". -/
def wOracleFail : Oracle :=
  ⟨fun _ => true, fun _ => IngestOutcome.status "failed", fun _ => [],
    fun _ => "2026-01-01T00:00:00Z"⟩

/-- A concrete oracle whose ingests complete but whose listings come back
empty. -/
def wOracleEmpty : Oracle :=
  ⟨fun _ => true, fun _ => IngestOutcome.status "completed", fun _ => [],
    fun _ => "2026-01-01T00:00:00Z"⟩

/-! ## Basic dictionary lemmas -/

theorem dictGet_dictSet_self {α : Type} (k : String) (v : α) (d : List (String × α)) :
    dictGet k (dictSet k v d) = some v := by
  induction d with
  | nil => simp [dictGet, dictSet]
  | cons p d ih =>
    obtain ⟨k₁, v₁⟩ := p
    by_cases h : k₁ = k <;> simp [dictGet, dictSet, h, ih]

theorem dictGet_dictSet_ne {α : Type} (q k : String) (hne : q ≠ k) (v : α)
    (d : List (String × α)) : dictGet q (dictSet k v d) = dictGet q d := by
  have hkq : ¬ k = q := fun h => hne h.symm
  induction d with
  | nil => simp [dictGet, dictSet, hkq]
  | cons p d ih =>
    obtain ⟨k₁, v₁⟩ := p
    by_cases h : k₁ = k
    · subst h
      simp [dictGet, dictSet, hkq]
    · simp [dictGet, dictSet, h, ih]

/-! ## Case analysis of one loop iteration -/

theorem processArtifact_skip_eq (o : Oracle) (vsId : String) (st : Stores) (a : Artifact)
    (h : dictGet a.name st.history = some a.hash) :
    processArtifact o vsId st a = ⟨st, 0, 0, 1, []⟩ := by
  simp [processArtifact, h]

theorem processArtifact_trichotomy (o : Oracle) (vsId : String) (st : Stores) (a : Artifact) :
    (dictGet a.name st.history = some a.hash ∧ processArtifact o vsId st a = ⟨st, 0, 0, 1, []⟩)
    ∨ (dictGet a.name st.history ≠ some a.hash ∧ ingestOutcomeFails (o.ingest a) = true ∧
        (processArtifact o vsId st a).stores = st ∧ (processArtifact o vsId st a).dSkip = 0 ∧
        (processArtifact o vsId st a).dNew + (processArtifact o vsId st a).dUpd = 1)
    ∨ (dictGet a.name st.history ≠ some a.hash ∧
        o.ingest a = IngestOutcome.status "completed" ∧
        (processArtifact o vsId st a).stores.history = dictSet a.name a.hash st.history ∧
        (processArtifact o vsId st a).stores.mapping =
          dictSet a.name ⟨recoveredFileId (o.listing a) a.stem, o.uploadedAt a, vsId⟩
            st.mapping ∧
        (processArtifact o vsId st a).dSkip = 0 ∧
        (processArtifact o vsId st a).dNew + (processArtifact o vsId st a).dUpd = 1) := by
  by_cases hskip : dictGet a.name st.history = some a.hash
  · exact Or.inl ⟨hskip, processArtifact_skip_eq o vsId st a hskip⟩
  · cases hi : o.ingest a with
    | raised =>
      refine Or.inr (Or.inl ⟨hskip, by simp [ingestOutcomeFails, hi], ?_, ?_, ?_⟩) <;>
        cases htr : truthy (dictGet a.name st.history) <;>
          simp [processArtifact, hskip, hi, htr]
    | status s =>
      by_cases hs : s = "completed"
      · subst hs
        refine Or.inr (Or.inr ⟨hskip, rfl, ?_, ?_, ?_, ?_⟩) <;>
          cases htr : truthy (dictGet a.name st.history) <;>
            simp [processArtifact, hskip, hi, htr]
      · refine Or.inr (Or.inl ⟨hskip, by simp [ingestOutcomeFails, hi, hs], ?_, ?_, ?_⟩) <;>
          cases htr : truthy (dictGet a.name st.history) <;>
            simp [processArtifact, hskip, hi, hs, htr]

theorem processArtifact_fail_eq (o : Oracle) (vsId : String) (st : Stores) (a : Artifact)
    (hns : dictGet a.name st.history ≠ some a.hash)
    (hfail : ingestOutcomeFails (o.ingest a) = true) :
    (processArtifact o vsId st a).stores = st ∧
    (processArtifact o vsId st a).dSkip = 0 ∧
    (processArtifact o vsId st a).dNew + (processArtifact o vsId st a).dUpd = 1 := by
  rcases processArtifact_trichotomy o vsId st a with h | h | h
  · exact absurd h.1 hns
  · exact ⟨h.2.2.1, h.2.2.2.1, h.2.2.2.2⟩
  · rw [h.2.1] at hfail
    simp [ingestOutcomeFails] at hfail

theorem processArtifact_get_ne (o : Oracle) (vsId : String) (st : Stores) (a : Artifact)
    (n : String) (hn : n ≠ a.name) :
    dictGet n (processArtifact o vsId st a).stores.history = dictGet n st.history ∧
    dictGet n (processArtifact o vsId st a).stores.mapping = dictGet n st.mapping := by
  rcases processArtifact_trichotomy o vsId st a with h | h | h
  · rw [h.2]; exact ⟨rfl, rfl⟩
  · rw [h.2.2.1]; exact ⟨rfl, rfl⟩
  · rw [h.2.2.1, h.2.2.2.1]
    exact ⟨dictGet_dictSet_ne n a.name hn _ _, dictGet_dictSet_ne n a.name hn _ _⟩

theorem processArtifact_completed_get (o : Oracle) (vsId : String) (st : Stores) (a : Artifact)
    (hc : o.ingest a = IngestOutcome.status "completed") :
    dictGet a.name (processArtifact o vsId st a).stores.history = some a.hash := by
  rcases processArtifact_trichotomy o vsId st a with h | h | h
  · rw [h.2]; exact h.1
  · rw [hc] at h
    simp [ingestOutcomeFails] at h
  · rw [h.2.2.1]; exact dictGet_dictSet_self a.name a.hash st.history

theorem processArtifact_write (o : Oracle) (vsId : String) (st : Stores) (a : Artifact)
    (n : String)
    (h : dictGet n (processArtifact o vsId st a).stores.history ≠ dictGet n st.history) :
    a.name = n ∧ o.ingest a = IngestOutcome.status "completed" ∧
      dictGet n (processArtifact o vsId st a).stores.history = some a.hash := by
  by_cases hn : n = a.name
  · subst hn
    rcases processArtifact_trichotomy o vsId st a with hc | hc | hc
    · rw [hc.2] at h
      exact absurd rfl h
    · rw [hc.2.2.1] at h
      exact absurd rfl h
    · exact ⟨rfl, hc.2.1,
        by rw [hc.2.2.1]; exact dictGet_dictSet_self a.name a.hash st.history⟩
  · exact absurd (processArtifact_get_ne o vsId st a n hn).1 h

/-! ## Run-level lemmas -/

theorem runLoop_append (o : Oracle) (vsId : String) (l₁ l₂ : List Artifact) :
    ∀ acc : RunAcc, runLoop o vsId acc (l₁ ++ l₂) = runLoop o vsId (runLoop o vsId acc l₁) l₂ := by
  induction l₁ with
  | nil => intro acc; rfl
  | cons a l₁ ih => intro acc; simp [runLoop, ih]

theorem runLoop_norm (o : Oracle) (vsId : String) (l : List Artifact) :
    ∀ acc : RunAcc,
      runLoop o vsId acc l =
        ⟨(runLoop o vsId (initAcc acc.stores) l).stores,
         acc.uploaded + (runLoop o vsId (initAcc acc.stores) l).uploaded,
         acc.updated + (runLoop o vsId (initAcc acc.stores) l).updated,
         acc.skipped + (runLoop o vsId (initAcc acc.stores) l).skipped,
         acc.trace ++ (runLoop o vsId (initAcc acc.stores) l).trace⟩ := by
  induction l with
  | nil => intro acc; cases acc; simp [runLoop, initAcc]
  | cons a l ih =>
    intro acc
    rw [runLoop, runLoop, ih (stepRun o vsId acc a), ih (stepRun o vsId (initAcc acc.stores) a)]
    simp only [stepRun, initAcc]
    simp [RunAcc.mk.injEq, Nat.add_assoc, List.append_assoc]

theorem runLoop_get_ne (o : Oracle) (vsId : String) (n : String) (l : List Artifact) :
    ∀ acc : RunAcc, (∀ a ∈ l, a.name ≠ n) →
      dictGet n (runLoop o vsId acc l).stores.history = dictGet n acc.stores.history ∧
      dictGet n (runLoop o vsId acc l).stores.mapping = dictGet n acc.stores.mapping := by
  induction l with
  | nil => intro acc _; exact ⟨rfl, rfl⟩
  | cons a l ih =>
    intro acc hl
    have hstep := processArtifact_get_ne o vsId acc.stores a n
      (fun h => hl a (List.mem_cons_self a l) h.symm)
    have hrest := ih (stepRun o vsId acc a) (fun b hb => hl b (List.mem_cons_of_mem a hb))
    rw [runLoop]
    exact ⟨hrest.1.trans hstep.1, hrest.2.trans hstep.2⟩

theorem runLoop_all_current (o : Oracle) (vsId : String) (l : List Artifact) :
    ∀ acc : RunAcc,
      (∀ a ∈ l, o.ingest a = IngestOutcome.status "completed") →
      (l.map Artifact.name).Nodup →
      ∀ a ∈ l, dictGet a.name (runLoop o vsId acc l).stores.history = some a.hash := by
  induction l with
  | nil => intro acc _ _ a ha; exact absurd ha (List.not_mem_nil a)
  | cons b l ih =>
    intro acc hall hnd a ha
    rw [List.map_cons, List.nodup_cons] at hnd
    rcases List.mem_cons.mp ha with rfl | hmem
    · rw [runLoop]
      have hstep := processArtifact_completed_get o vsId acc.stores a
        (hall a (List.mem_cons_self a l))
      have hrest := runLoop_get_ne o vsId a.name l (stepRun o vsId acc a)
        (fun b hb hcon => hnd.1 (hcon ▸ List.mem_map_of_mem Artifact.name hb))
      exact hrest.1.trans hstep
    · exact ih (stepRun o vsId acc b)
        (fun c hc => hall c (List.mem_cons_of_mem b hc)) hnd.2 a hmem

theorem runLoop_all_skip (o : Oracle) (vsId : String) (l : List Artifact) :
    ∀ acc : RunAcc,
      (∀ a ∈ l, dictGet a.name acc.stores.history = some a.hash) →
      runLoop o vsId acc l = ⟨acc.stores, acc.uploaded, acc.updated,
        acc.skipped + l.length, acc.trace⟩ := by
  induction l with
  | nil => intro acc _; cases acc; rfl
  | cons a l ih =>
    intro acc hall
    have hstep := processArtifact_skip_eq o vsId acc.stores a (hall a (List.mem_cons_self a l))
    rw [runLoop]
    have hacc : stepRun o vsId acc a =
        ⟨acc.stores, acc.uploaded, acc.updated, acc.skipped + 1, acc.trace⟩ := by
      simp [stepRun, hstep]
    rw [hacc, ih ⟨acc.stores, acc.uploaded, acc.updated, acc.skipped + 1, acc.trace⟩
      (fun b hb => hall b (List.mem_cons_of_mem a hb))]
    simp [Nat.add_assoc, Nat.add_comm 1 l.length]

theorem processArtifact_calls_updated (o : Oracle) (vsId : String) (st : Stores) (a : Artifact)
    (rec : MappingRecord)
    (hch : dictGet a.name st.history ≠ some a.hash)
    (hupd : truthy (dictGet a.name st.history) = true)
    (hmap : dictGet a.name st.mapping = some rec)
    (hfid : rec.file_id ≠ "") :
    ∃ rest, (processArtifact o vsId st a).calls =
      RemoteCall.delete vsId rec.file_id :: RemoteCall.ingest vsId a.name :: rest := by
  cases hi : o.ingest a with
  | raised =>
    exact ⟨[], by simp [processArtifact, hch, hupd, hi,
      delete_old_file_from_vector_store, hmap, hfid]⟩
  | status s =>
    by_cases hs : s = "completed"
    · subst hs
      exact ⟨[RemoteCall.listFiles vsId], by simp [processArtifact, hch, hupd, hi,
        delete_old_file_from_vector_store, hmap, hfid]⟩
    · exact ⟨[], by simp [processArtifact, hch, hupd, hi, hs,
        delete_old_file_from_vector_store, hmap, hfid]⟩

/-! ## Claim theorems -/

/-- Claim C5: an artifact whose current fingerprint equals the fingerprint
stored for its name is classified as skipped — the skipped counter is
incremented by one, no remote call (delete, ingest, or listing) is issued
for it, and both stores are left exactly unchanged. -/
theorem cFive_unchanged_artifact_skipped (o : Oracle) (vsId : String) (st : Stores)
    (a : Artifact) (h : dictGet a.name st.history = some a.hash) :
    processArtifact o vsId st a = ⟨st, 0, 0, 1, []⟩ :=
  processArtifact_skip_eq o vsId st a h

/-- Witness for C5: artifact "a.md" with stored fingerprint "H1" and
identical current fingerprint is skipped with no calls and no mutation. -/
theorem cFive_unchanged_artifact_skipped_witness :
    processArtifact wOracle "vs_1" ⟨[("a.md", "H1")], []⟩ wA =
      ⟨⟨[("a.md", "H1")], []⟩, 0, 0, 1, []⟩ :=
  cFive_unchanged_artifact_skipped wOracle "vs_1" ⟨[("a.md", "H1")], []⟩ wA (by decide)

/-- Claim C2: for an artifact classified as updated whose index mapping
record carries a remote file id, the delete call for the old id is issued
strictly before the ingest call for the new content, and the outcome of
that delete call is never consulted — the iteration is identical whatever
the delete oracle answers, so a delete failure cannot abort the
re-ingest. -/
theorem cTwo_delete_before_replace (o : Oracle) (vsId : String) (st : Stores) (a : Artifact)
    (rec : MappingRecord)
    (hch : dictGet a.name st.history ≠ some a.hash)
    (hupd : truthy (dictGet a.name st.history) = true)
    (hmap : dictGet a.name st.mapping = some rec)
    (hfid : rec.file_id ≠ "") :
    (∃ rest, (processArtifact o vsId st a).calls =
        RemoteCall.delete vsId rec.file_id :: RemoteCall.ingest vsId a.name :: rest) ∧
    ∀ f, processArtifact ⟨f, o.ingest, o.listing, o.uploadedAt⟩ vsId st a =
        processArtifact o vsId st a :=
  ⟨processArtifact_calls_updated o vsId st a rec hch hupd hmap hfid, fun _ => rfl⟩

/-- Witness for C2: artifact "a.md" updated from fingerprint "H0" with old
remote file "fid_old". -/
theorem cTwo_delete_before_replace_witness :
    (∃ rest, (processArtifact wOracle "vs_1"
        ⟨[("a.md", "H0")], [("a.md", ⟨"fid_old", "t0", "vs_1"⟩)]⟩ wA).calls =
        RemoteCall.delete "vs_1" "fid_old" :: RemoteCall.ingest "vs_1" wA.name :: rest) ∧
    ∀ f, processArtifact ⟨f, wOracle.ingest, wOracle.listing, wOracle.uploadedAt⟩ "vs_1"
        ⟨[("a.md", "H0")], [("a.md", ⟨"fid_old", "t0", "vs_1"⟩)]⟩ wA =
        processArtifact wOracle "vs_1"
          ⟨[("a.md", "H0")], [("a.md", ⟨"fid_old", "t0", "vs_1"⟩)]⟩ wA :=
  cTwo_delete_before_replace wOracle "vs_1"
    ⟨[("a.md", "H0")], [("a.md", ⟨"fid_old", "t0", "vs_1"⟩)]⟩ wA
    ⟨"fid_old", "t0", "vs_1"⟩ (by decide) (by decide) (by decide) (by decide)

/-- Claim C8: for both stores, loading from a backing path that does not
exist returns the empty mapping and no error. -/
theorem cEight_load_missing (fsH : FileSys String) (fsM : FileSys MappingRecord)
    (p q : String) (h₁ : dictGet p fsH = none) (h₂ : dictGet q fsM = none) :
    load_json fsH p = [] ∧ load_json fsM q = [] := by
  constructor <;> simp [load_json, h₁, h₂]

/-- Witness for C8: loading the two store files from an empty filesystem
yields empty mappings. -/
theorem cEight_load_missing_witness :
    load_json ([] : FileSys String) "upload_history.json" = [] ∧
    load_json ([] : FileSys MappingRecord) "vector_store_mapping.json" = [] :=
  cEight_load_missing [] [] "upload_history.json" "vector_store_mapping.json"
    (by decide) (by decide)

/-- Claim C9: round trip — persisting a store document and loading from the
same path reproduces the mapping exactly, for both the fingerprint store
and the index mapping store. -/
theorem cNine_store_round_trip (fsH : FileSys String) (fsM : FileSys MappingRecord)
    (p q : String) (dH : StoreDoc String) (dM : StoreDoc MappingRecord) :
    load_json (save_json fsH p dH) p = dH ∧ load_json (save_json fsM q dM) q = dM := by
  constructor <;> simp [load_json, save_json, dictGet_dictSet_self]

/-- Claim C10: when the ingest batch completes but the follow-up listing is
empty, the artifact is still treated as successful — the fingerprint store
receives the new hash, the mapping store records the synthetic file id
"unknown_" followed by the artifact stem, and the artifact is counted as
new or updated. -/
theorem cTen_unknown_file_id (o : Oracle) (vsId : String) (st : Stores) (a : Artifact)
    (hns : dictGet a.name st.history ≠ some a.hash)
    (hc : o.ingest a = IngestOutcome.status "completed")
    (hl : o.listing a = []) :
    (processArtifact o vsId st a).stores.history = dictSet a.name a.hash st.history ∧
    (processArtifact o vsId st a).stores.mapping =
      dictSet a.name ⟨"unknown_" ++ a.stem, o.uploadedAt a, vsId⟩ st.mapping ∧
    (processArtifact o vsId st a).dSkip = 0 ∧
    (processArtifact o vsId st a).dNew + (processArtifact o vsId st a).dUpd = 1 := by
  rcases processArtifact_trichotomy o vsId st a with h | h | h
  · exact absurd h.1 hns
  · rw [hc] at h
    simp [ingestOutcomeFails] at h
  · refine ⟨h.2.2.1, ?_, h.2.2.2.2.1, h.2.2.2.2.2⟩
    rw [h.2.2.2.1, hl]
    rfl

/-- Witness for C10: a new artifact ingested under an oracle that completes
but lists nothing gets fingerprint "H1" and file id "unknown_a". -/
theorem cTen_unknown_file_id_witness :
    (processArtifact wOracleEmpty "vs_1" ⟨[], []⟩ wA).stores.history =
      dictSet wA.name wA.hash [] ∧
    (processArtifact wOracleEmpty "vs_1" ⟨[], []⟩ wA).stores.mapping =
      dictSet wA.name ⟨"unknown_" ++ wA.stem, wOracleEmpty.uploadedAt wA, "vs_1"⟩ [] ∧
    (processArtifact wOracleEmpty "vs_1" ⟨[], []⟩ wA).dSkip = 0 ∧
    (processArtifact wOracleEmpty "vs_1" ⟨[], []⟩ wA).dNew +
      (processArtifact wOracleEmpty "vs_1" ⟨[], []⟩ wA).dUpd = 1 :=
  cTen_unknown_file_id wOracleEmpty "vs_1" ⟨[], []⟩ wA (by decide) (by decide) (by decide)

/-- Claim C7: collection resolution — when no supplied collection id
verifies as existing (none configured, or retrieval of the configured one
fails), production mode returns the fatal error and never issues a create
call, while any other environment creates a new collection and returns its
id. -/
theorem cSeven_strict_mode_resolution (cfg : Config) (o : VsOracle)
    (h : cfg.vectorStoreIdEnv = "" ∨ o.retrieveOk = false) :
    (cfg.environment = "production" →
      (get_or_create_vector_store cfg o).1 =
        Except.error "VECTOR_STORE_ID must be set in production environment" ∧
      VsCall.create ∉ (get_or_create_vector_store cfg o).2) ∧
    (cfg.environment ≠ "production" →
      (get_or_create_vector_store cfg o).1 = Except.ok o.createdId ∧
      VsCall.create ∈ (get_or_create_vector_store cfg o).2) := by
  rcases h with h | h
  · constructor <;> intro hp <;> simp [get_or_create_vector_store, h, hp]
  · by_cases he : cfg.vectorStoreIdEnv = ""
    · constructor <;> intro hp <;> simp [get_or_create_vector_store, he, hp]
    · constructor <;> intro hp <;> simp [get_or_create_vector_store, he, h, hp]

/-- Witness for C7: production with no configured id errors without a
create call; the same configuration under development creates. -/
theorem cSeven_strict_mode_resolution_witness :
    ((⟨"", "production"⟩ : Config).environment = "production" →
      (get_or_create_vector_store ⟨"", "production"⟩ ⟨false, "vs_new"⟩).1 =
        Except.error "VECTOR_STORE_ID must be set in production environment" ∧
      VsCall.create ∉ (get_or_create_vector_store ⟨"", "production"⟩ ⟨false, "vs_new"⟩).2) ∧
    ((⟨"", "production"⟩ : Config).environment ≠ "production" →
      (get_or_create_vector_store ⟨"", "production"⟩ ⟨false, "vs_new"⟩).1 =
        Except.ok (⟨false, "vs_new"⟩ : VsOracle).createdId ∧
      VsCall.create ∈ (get_or_create_vector_store ⟨"", "production"⟩ ⟨false, "vs_new"⟩).2) :=
  cSeven_strict_mode_resolution ⟨"", "production"⟩ ⟨false, "vs_new"⟩ (by decide)

/-- Claim C1 is false on the code: the returned summary has no field
counting failed artifacts at all, and an artifact whose ingest fails is
still counted — here a single artifact whose ingest batch ends with status
"failed" yields uploaded_files = new_files = 1 (and total_chunks = 1),
although zero artifacts succeeded, so a failing artifact does contribute to
a count other than "failed". -/
theorem cOne_counterexample :
    ingestOutcomeFails (wOracleFail.ingest wA) = true ∧
    uploadSummary (runReconciliation wOracleFail "vs_1" [] [] [wA]) "vs_1" =
      ⟨1, 0, 0, 1, 1, some "vs_1"⟩ := by
  decide

/-- Claim C1 (amended): the Run Outcome reports counts of new, updated and
skipped artifacts only — there is no failed count — and an artifact whose
ingest fails is still counted under new or updated according to its
classification (exactly one of the two, never skipped); only its store
entries are left untouched. -/
theorem cOne_amended_failed_artifact_counts (o : Oracle) (vsId : String) (st : Stores)
    (a : Artifact)
    (hns : dictGet a.name st.history ≠ some a.hash)
    (hfail : ingestOutcomeFails (o.ingest a) = true) :
    (processArtifact o vsId st a).stores = st ∧
    (processArtifact o vsId st a).dSkip = 0 ∧
    (processArtifact o vsId st a).dNew + (processArtifact o vsId st a).dUpd = 1 :=
  processArtifact_fail_eq o vsId st a hns hfail

/-- Witness for the amended C1: a fresh artifact under the failing oracle
leaves the stores untouched while counting once as new-or-updated. -/
theorem cOne_amended_failed_artifact_counts_witness :
    (processArtifact wOracleFail "vs_1" ⟨[], []⟩ wA).stores = (⟨[], []⟩ : Stores) ∧
    (processArtifact wOracleFail "vs_1" ⟨[], []⟩ wA).dSkip = 0 ∧
    (processArtifact wOracleFail "vs_1" ⟨[], []⟩ wA).dNew +
      (processArtifact wOracleFail "vs_1" ⟨[], []⟩ wA).dUpd = 1 :=
  cOne_amended_failed_artifact_counts wOracleFail "vs_1" ⟨[], []⟩ wA (by decide) (by decide)

/-- Claim C3: fault isolation — when the ingest for artifact X fails (and X
is not skipped, i.e. its content changed), the loop still processes every
other artifact exactly as it would in the run without X: same final stores,
same skipped count, one extra new-or-updated classification; and X's
fingerprint store entry and index mapping entry after the run equal those
before the run. -/
theorem cThree_fault_isolation (o : Oracle) (vsId : String) (acc : RunAcc)
    (l₁ l₂ : List Artifact) (X : Artifact)
    (hfail : ingestOutcomeFails (o.ingest X) = true)
    (hns : dictGet X.name acc.stores.history ≠ some X.hash)
    (hname : ∀ b ∈ l₁ ++ l₂, b.name ≠ X.name) :
    (runLoop o vsId acc (l₁ ++ X :: l₂)).stores = (runLoop o vsId acc (l₁ ++ l₂)).stores ∧
    (runLoop o vsId acc (l₁ ++ X :: l₂)).skipped = (runLoop o vsId acc (l₁ ++ l₂)).skipped ∧
    (runLoop o vsId acc (l₁ ++ X :: l₂)).uploaded +
        (runLoop o vsId acc (l₁ ++ X :: l₂)).updated =
      (runLoop o vsId acc (l₁ ++ l₂)).uploaded + (runLoop o vsId acc (l₁ ++ l₂)).updated + 1 ∧
    dictGet X.name (runLoop o vsId acc (l₁ ++ X :: l₂)).stores.history =
      dictGet X.name acc.stores.history ∧
    dictGet X.name (runLoop o vsId acc (l₁ ++ X :: l₂)).stores.mapping =
      dictGet X.name acc.stores.mapping := by
  have hnl₁ : ∀ b ∈ l₁, b.name ≠ X.name :=
    fun b hb => hname b (List.mem_append_left l₂ hb)
  have hnl₂ : ∀ b ∈ l₂, b.name ≠ X.name :=
    fun b hb => hname b (List.mem_append_right l₁ hb)
  have hsplit₁ : runLoop o vsId acc (l₁ ++ X :: l₂) =
      runLoop o vsId (stepRun o vsId (runLoop o vsId acc l₁) X) l₂ := by
    rw [runLoop_append, runLoop]
  have hsplit₂ : runLoop o vsId acc (l₁ ++ l₂) =
      runLoop o vsId (runLoop o vsId acc l₁) l₂ := runLoop_append o vsId l₁ l₂ acc
  have hXget := runLoop_get_ne o vsId X.name l₁ acc hnl₁
  have hfe := processArtifact_fail_eq o vsId (runLoop o vsId acc l₁).stores X
    (by rw [hXget.1]; exact hns) hfail
  have hd₂ := hfe.2.1
  have hd₃ := hfe.2.2
  have hn₁ := runLoop_norm o vsId l₂ (stepRun o vsId (runLoop o vsId acc l₁) X)
  have hn₂ := runLoop_norm o vsId l₂ (runLoop o vsId acc l₁)
  have hstores : (stepRun o vsId (runLoop o vsId acc l₁) X).stores =
      (runLoop o vsId acc l₁).stores := hfe.1
  rw [hstores] at hn₁
  refine ⟨?_, ?_, ?_, ?_, ?_⟩
  · simp only [hsplit₁, hsplit₂, hn₁, hn₂]
  · rw [hsplit₁, hsplit₂, hn₁, hn₂]
    simp only [stepRun]
    omega
  · rw [hsplit₁, hsplit₂, hn₁, hn₂]
    simp only [stepRun]
    omega
  · have h₂ := runLoop_get_ne o vsId X.name l₂
      (initAcc (runLoop o vsId acc l₁).stores) hnl₂
    rw [hsplit₁, hn₁]
    exact h₂.1.trans hXget.1
  · have h₂ := runLoop_get_ne o vsId X.name l₂
      (initAcc (runLoop o vsId acc l₁).stores) hnl₂
    rw [hsplit₁, hn₁]
    exact h₂.2.trans hXget.2

/-- Witness for C3: X = "a.md" failing between "b.md" before it and nothing
after it, from empty stores. -/
theorem cThree_fault_isolation_witness :
    (runLoop wOracleFail "vs_1" (initAcc ⟨[], []⟩) ([wB] ++ wA :: [])).stores =
      (runLoop wOracleFail "vs_1" (initAcc ⟨[], []⟩) ([wB] ++ [])).stores ∧
    (runLoop wOracleFail "vs_1" (initAcc ⟨[], []⟩) ([wB] ++ wA :: [])).skipped =
      (runLoop wOracleFail "vs_1" (initAcc ⟨[], []⟩) ([wB] ++ [])).skipped ∧
    (runLoop wOracleFail "vs_1" (initAcc ⟨[], []⟩) ([wB] ++ wA :: [])).uploaded +
        (runLoop wOracleFail "vs_1" (initAcc ⟨[], []⟩) ([wB] ++ wA :: [])).updated =
      (runLoop wOracleFail "vs_1" (initAcc ⟨[], []⟩) ([wB] ++ [])).uploaded +
        (runLoop wOracleFail "vs_1" (initAcc ⟨[], []⟩) ([wB] ++ [])).updated + 1 ∧
    dictGet wA.name (runLoop wOracleFail "vs_1" (initAcc ⟨[], []⟩)
        ([wB] ++ wA :: [])).stores.history =
      dictGet wA.name (initAcc (⟨[], []⟩ : Stores)).stores.history ∧
    dictGet wA.name (runLoop wOracleFail "vs_1" (initAcc ⟨[], []⟩)
        ([wB] ++ wA :: [])).stores.mapping =
      dictGet wA.name (initAcc (⟨[], []⟩ : Stores)).stores.mapping :=
  cThree_fault_isolation wOracleFail "vs_1" (initAcc ⟨[], []⟩) [wB] [] wA
    (by decide) (by decide) (by decide)

/-- Claim C4: Fingerprint Store invariant — whenever a run changes the
fingerprint stored under a name, some processed artifact of that name had
its ingest batch report status "completed", and the stored fingerprint is
that artifact's content hash; an entry is never written for an artifact
whose ingest did not report "completed". -/
theorem cFour_fingerprint_invariant (o : Oracle) (vsId : String) (l : List Artifact)
    (acc : RunAcc) (n : String)
    (h : dictGet n (runLoop o vsId acc l).stores.history ≠ dictGet n acc.stores.history) :
    ∃ a, a ∈ l ∧ a.name = n ∧ o.ingest a = IngestOutcome.status "completed" ∧
      dictGet n (runLoop o vsId acc l).stores.history = some a.hash := by
  induction l generalizing acc with
  | nil => exact absurd rfl h
  | cons b l ih =>
    rw [runLoop] at h ⊢
    by_cases hs : dictGet n (runLoop o vsId (stepRun o vsId acc b) l).stores.history =
        dictGet n (stepRun o vsId acc b).stores.history
    · have hb : dictGet n (stepRun o vsId acc b).stores.history ≠
          dictGet n acc.stores.history := fun hcon => h (hs.trans hcon)
      have hw := processArtifact_write o vsId acc.stores b n hb
      exact ⟨b, List.mem_cons_self b l, hw.1, hw.2.1, hs.trans hw.2.2⟩
    · rcases ih (stepRun o vsId acc b) hs with ⟨a, ha, h1, h2, h3⟩
      exact ⟨a, List.mem_cons_of_mem b ha, h1, h2, h3⟩

/-- Witness for C4: from empty stores, the run over "a.md" with a
completing oracle changes the entry, and the invariant produces the
completed artifact. -/
theorem cFour_fingerprint_invariant_witness :
    ∃ a, a ∈ [wA] ∧ a.name = "a.md" ∧
      wOracle.ingest a = IngestOutcome.status "completed" ∧
      dictGet "a.md" (runLoop wOracle "vs_1" (initAcc ⟨[], []⟩) [wA]).stores.history =
        some a.hash :=
  cFour_fingerprint_invariant wOracle "vs_1" [wA] (initAcc ⟨[], []⟩) "a.md" (by decide)

/-- Claim C6: idempotence — when every ingest of the first run completes
and artifact names are distinct, a second run over the same artifacts,
starting from the stores the first run left, issues no remote call in its
loop (in particular no delete and no ingest, under any oracle), classifies
every artifact as skipped, and leaves the stores exactly as the first run
persisted them. -/
theorem cSix_idempotent_second_run (o o₂ : Oracle) (vsId : String) (s₀ : Stores)
    (l : List Artifact)
    (hc : ∀ a ∈ l, o.ingest a = IngestOutcome.status "completed")
    (hnd : (l.map Artifact.name).Nodup) :
    runLoop o₂ vsId (initAcc (runLoop o vsId (initAcc s₀) l).stores) l =
      ⟨(runLoop o vsId (initAcc s₀) l).stores, 0, 0, l.length, []⟩ := by
  have hcur := runLoop_all_current o vsId l (initAcc s₀) hc hnd
  have hskip := runLoop_all_skip o₂ vsId l
    (initAcc (runLoop o vsId (initAcc s₀) l).stores) (fun a ha => hcur a ha)
  simpa [initAcc] using hskip

/-- Witness for C6: two distinct artifacts, first run under the completing
oracle, second run under the failing oracle still makes zero calls. -/
theorem cSix_idempotent_second_run_witness :
    runLoop wOracleFail "vs_1"
        (initAcc (runLoop wOracle "vs_1" (initAcc ⟨[], []⟩) [wA, wB]).stores) [wA, wB] =
      ⟨(runLoop wOracle "vs_1" (initAcc ⟨[], []⟩) [wA, wB]).stores, 0, 0,
        [wA, wB].length, []⟩ :=
  cSix_idempotent_second_run wOracle wOracleFail "vs_1" ⟨[], []⟩ [wA, wB]
    (by decide) (by decide)

end SupportDocs
